import Mathlib

/-!
Verification of the Nutify UPS data-cache / aggregation core
(`core/db/ups/cache.py` and `core/db/ups/aggregator.py`).

Shallow embedding conventions:
* Python numbers (ints and floats) are modelled as exact rationals `ℚ`;
  `round(x, n)` is modelled as round-half-to-even on the rational value.
* Python values appearing in UPS reading dictionaries are modelled by `Val`
  (a number, a string, `None`, or a boolean).
* Python dictionaries are modelled as association lists with *last-binding-wins*
  lookup (`pyGetO`), matching dict construction by successive assignment.
* `float(s)` on a string is modelled by an abstract parameter
  `parse : String → Option ℚ` (`none` models a `ValueError`); theorems are
  universally quantified over it.
* Wall-clock UTC time is modelled as a natural number of seconds; all the
  `datetime.now(pytz.UTC)` calls made during one scheduler step are modelled
  as a single instant `now` (the code reads the clock several times within
  microseconds of each other).
-/

/-- A Python value as it occurs in UPS data dictionaries: a number (int or
float, modelled as an exact rational), a string, `None`, or a boolean. -/
inductive Val where
  | num : ℚ → Val
  | vstr : String → Val
  | vnone : Val
  | vbool : Bool → Val
deriving DecidableEq, Repr

/-- Python `==` restricted to `Val` (numbers and booleans compare by numeric
value, as in Python where `True == 1`; distinct kinds are otherwise unequal,
and `None == None`). -/
def pyEq : Val → Val → Bool
  | .num a, .num b => a = b
  | .num a, .vbool b => a = (if b then 1 else 0)
  | .vbool a, .num b => (if a then (1 : ℚ) else 0) = b
  | .vbool a, .vbool b => a = b
  | .vstr a, .vstr b => a = b
  | .vnone, .vnone => true
  | _, _ => false

/-- Lookup in an association list with Python-dict semantics: the *last*
binding of a key wins (a dict built by successive assignment keeps the most
recent value). Returns `none` when the key is absent. -/
def pyGetO {α : Type} (l : List (String × α)) (k : String) : Option α :=
  match l with
  | [] => none
  | kv :: t =>
    match pyGetO t k with
    | some v => some v
    | none => if kv.1 = k then some kv.2 else none

/-- Round-half-to-even to an integer (the rounding used by Python's `round`
and by pandas/numpy on exact values). -/
def roundHE (q : ℚ) : ℤ :=
  if q - ⌊q⌋ < 1/2 then ⌊q⌋
  else if 1/2 < q - ⌊q⌋ then ⌊q⌋ + 1
  else if ⌊q⌋ % 2 = 0 then ⌊q⌋ else ⌊q⌋ + 1

/-- `round(q, n)`: round-half-to-even at `n` decimal places. -/
def roundTo (n : ℕ) (q : ℚ) : ℚ := (roundHE (q * 10 ^ n) : ℚ) / 10 ^ n

/-- Auxiliary: is `needle` a contiguous sublist of `hay`? -/
def listInfix (needle : List Char) : List Char → Bool
  | [] => needle.isEmpty
  | c :: t => needle.isPrefixOf (c :: t) || listInfix needle t

/-- Python `needle in hay` on strings: substring containment. -/
def strContains (hay needle : String) : Bool :=
  listInfix needle.data hay.data

/-- Python `s.upper()` (code-point-wise, as for the ASCII statuses used here). -/
def pyUpper (s : String) : String := String.mk (s.data.map Char.toUpper)

/-- Python `s.strip()`: remove leading and trailing whitespace. -/
def pyStrip (s : String) : String :=
  String.mk (((s.data.dropWhile Char.isWhitespace).reverse.dropWhile
    Char.isWhitespace).reverse)

/-! ## Status resolver (`aggregator.py`, `STATUS_PRIORITY`,
`get_status_priority`, `get_worst_status`) -/

/-- The fixed severity table, in source order (higher = worse). -/
def STATUS_PRIORITY : List (String × ℕ) :=
  [("OB DISCHRG", 7), ("OB", 6), ("LB", 5), ("RB", 4), ("OVER", 3),
   ("CHRG", 2), ("OL", 1), ("OFFLINE", 8), ("UNKNOWN", 0)]

/-- `get_status_priority(status)`: a falsy status (Python `None` or the empty
string) maps to `UNKNOWN` severity 0; otherwise the status is uppercased and
trimmed, looked up exactly in the table, and failing that the maximum severity
among table keys occurring as substrings is taken (0 when none matches). -/
def get_status_priority (st : Option String) : ℕ :=
  match st with
  | none => 0
  | some s =>
    if s = "" then 0
    else
      let t := pyStrip (pyUpper s)
      match pyGetO STATUS_PRIORITY t with
      | some p => p
      | none =>
        let m := STATUS_PRIORITY.foldl
          (fun acc kv => if strContains t kv.1 then max acc kv.2 else acc) 0
        if 0 < m then m else 0

/-- `get_worst_status(statuses)`: `"UNKNOWN"` on an empty list; otherwise a
fold keeping the first-seen status of strictly maximal severity. List elements
are `Option String` because Python may store `None` as a device status. -/
def get_worst_status (statuses : List (Option String)) : Option String :=
  match statuses with
  | [] => some "UNKNOWN"
  | s₀ :: rest =>
    (rest.foldl
      (fun acc s =>
        if get_status_priority s > acc.2 then (s, get_status_priority s) else acc)
      (s₀, get_status_priority s₀)).1

example : get_worst_status [some "OL", some "OB DISCHRG", some "LB"] = some "OB DISCHRG" := by
  decide

example : get_status_priority (some "ol chrg") = 2 := by decide

/-! ## Composite aggregator (`aggregator.py`, `safe_float`, `safe_get`,
`aggregate_ups_data`) -/

/-- A device reading: a Python dictionary from field name to value. -/
abbrev Reading := List (String × Val)

/-- `safe_get(data, key, default)` on a dict: the stored value when the key is
present (including a stored `None`), otherwise the default. -/
def safe_get (data : Reading) (key : String) (default : Val) : Val :=
  (pyGetO data key).getD default

/-- `safe_float(value)`: `None` yields the default 0; numbers and booleans
convert by value; a string converts through `parse` (the model of Python's
`float` on strings), with conversion failure yielding the default 0. -/
def safe_float (parse : String → Option ℚ) : Val → ℚ
  | .num q => q
  | .vnone => 0
  | .vbool b => if b then 1 else 0
  | .vstr s => (parse s).getD 0

/-- The status value the aggregation loop reads from one device:
`safe_get(ups_data, 'ups_status', safe_get(ups_data, 'ups.status', 'UNKNOWN'))`. -/
def agg_status (r : Reading) : Val :=
  safe_get r "ups_status" (safe_get r "ups.status" (.vstr "UNKNOWN"))

/-- View a status value as the Python string-or-`None` the rest of the loop
manipulates. A numeric or boolean status would make the Python code raise
(`status.upper()` on a non-string); such readings are outside the modelled
domain and are excluded by the `statusOK` hypothesis of the theorems. -/
def statusOpt : Val → Option String
  | .vstr s => some s
  | _ => none

/-- The effective status of a reading is a string or `None` (the domain on
which the Python aggregation loop does not raise). -/
def statusOK (r : Reading) : Bool :=
  match agg_status r with
  | .vstr _ => true
  | .vnone => true
  | _ => false

/-- The online test of the aggregation loop:
`status and ('OL' in status.upper() or 'CHRG' in status.upper())`. -/
def isOnline (st : Option String) : Bool :=
  match st with
  | none => false
  | some s =>
    if s = "" then false
    else strContains (pyUpper s) "OL" || strContains (pyUpper s) "CHRG"

/-- Per-device real power read by the loop (summed). -/
def devRealpower (parse : String → Option ℚ) (r : Reading) : ℚ :=
  safe_float parse (safe_get r "ups_realpower" (safe_get r "ups.realpower" (.num 0)))

/-- Per-device load percentage read by the loop (averaged over positives). -/
def devLoad (parse : String → Option ℚ) (r : Reading) : ℚ :=
  safe_float parse (safe_get r "ups_load" (safe_get r "ups.load" (.num 0)))

/-- Per-device battery charge read by the loop (averaged over positives). -/
def devBatteryCharge (parse : String → Option ℚ) (r : Reading) : ℚ :=
  safe_float parse (safe_get r "battery_charge" (safe_get r "battery.charge" (.num 0)))

/-- Per-device battery runtime read by the loop (minimum over positives). -/
def devRuntime (parse : String → Option ℚ) (r : Reading) : ℚ :=
  safe_float parse (safe_get r "battery_runtime" (safe_get r "battery.runtime" (.num 0)))

/-- Per-device input voltage read by the loop (averaged over positives). -/
def devInputVoltage (parse : String → Option ℚ) (r : Reading) : ℚ :=
  safe_float parse (safe_get r "input_voltage" (safe_get r "input.voltage" (.num 0)))

/-- Per-device output voltage read by the loop (averaged over positives). -/
def devOutputVoltage (parse : String → Option ℚ) (r : Reading) : ℚ :=
  safe_float parse (safe_get r "output_voltage" (safe_get r "output.voltage" (.num 0)))

/-- The accumulator variables of the aggregation loop in `aggregate_ups_data`. -/
structure AggAcc where
  statuses : List (Option String)
  total_realpower : ℚ
  total_load : ℚ
  total_battery_charge : ℚ
  total_input_voltage : ℚ
  total_output_voltage : ℚ
  min_runtime : Option ℚ
  online_count : ℕ
  load_count : ℕ
  battery_count : ℕ
  input_voltage_count : ℕ
  output_voltage_count : ℕ
deriving DecidableEq, Repr

/-- Initial accumulator values of the aggregation loop. -/
def initAcc : AggAcc := ⟨[], 0, 0, 0, 0, 0, none, 0, 0, 0, 0, 0⟩

/-- One iteration of the `for ups_data in ups_list` loop of
`aggregate_ups_data`. -/
def aggStep (parse : String → Option ℚ) (acc : AggAcc) (r : Reading) : AggAcc :=
  let st := statusOpt (agg_status r)
  let load := devLoad parse r
  let bc := devBatteryCharge parse r
  let rt := devRuntime parse r
  let iv := devInputVoltage parse r
  let ov := devOutputVoltage parse r
  { statuses := acc.statuses ++ [st]
    total_realpower := acc.total_realpower + devRealpower parse r
    total_load := if 0 < load then acc.total_load + load else acc.total_load
    load_count := if 0 < load then acc.load_count + 1 else acc.load_count
    total_battery_charge := if 0 < bc then acc.total_battery_charge + bc else acc.total_battery_charge
    battery_count := if 0 < bc then acc.battery_count + 1 else acc.battery_count
    min_runtime :=
      if 0 < rt then
        match acc.min_runtime with
        | none => some rt
        | some m => some (min m rt)
      else acc.min_runtime
    total_input_voltage := if 0 < iv then acc.total_input_voltage + iv else acc.total_input_voltage
    input_voltage_count := if 0 < iv then acc.input_voltage_count + 1 else acc.input_voltage_count
    total_output_voltage := if 0 < ov then acc.total_output_voltage + ov else acc.total_output_voltage
    output_voltage_count := if 0 < ov then acc.output_voltage_count + 1 else acc.output_voltage_count
    online_count := if isOnline st then acc.online_count + 1 else acc.online_count }

/-- Turn the worst status (a Python string-or-`None`) back into the dict value
stored in the aggregate record. -/
def statusVal : Option String → Val
  | some s => .vstr s
  | none => .vnone

/-- `aggregate_ups_data(all_ups_data)` over the list of device readings
(`list(all_ups_data.values())`). An empty input returns the early zero-valued
record; otherwise the loop accumulators are reduced to the final dict literal
of the source (both underscore- and dot-spelled keys for each metric, device
counts, and the `is_aggregated`/`source` metadata). -/
def aggregate_ups_data (parse : String → Option ℚ) (ups_list : List Reading) :
    List (String × Val) :=
  if ups_list = [] then
    [("ups_status", .vstr "UNKNOWN"),
     ("ups_realpower", .num 0),
     ("ups_load", .num 0),
     ("battery_charge", .num 0),
     ("battery_runtime", .num 0),
     ("input_voltage", .num 0),
     ("output_voltage", .num 0),
     ("ups_count", .num 0),
     ("ups_online_count", .num 0)]
  else
    let acc := ups_list.foldl (aggStep parse) initAcc
    let ups_count : ℚ := ups_list.length
    let worst := get_worst_status acc.statuses
    let avg_load : ℚ :=
      if 0 < acc.load_count then acc.total_load / acc.load_count else 0
    let avg_battery_charge : ℚ :=
      if 0 < acc.battery_count then acc.total_battery_charge / acc.battery_count else 0
    let avg_input_voltage : ℚ :=
      if 0 < acc.input_voltage_count then acc.total_input_voltage / acc.input_voltage_count else 0
    let avg_output_voltage : ℚ :=
      if 0 < acc.output_voltage_count then acc.total_output_voltage / acc.output_voltage_count else 0
    let runtime : Val :=
      match acc.min_runtime with
      | some m => .num (roundTo 0 m)
      | none => .num 0
    [("ups_status", statusVal worst),
     ("ups.status", statusVal worst),
     ("ups_realpower", .num (roundTo 2 acc.total_realpower)),
     ("ups.realpower", .num (roundTo 2 acc.total_realpower)),
     ("ups_load", .num (roundTo 1 avg_load)),
     ("ups.load", .num (roundTo 1 avg_load)),
     ("battery_charge", .num (roundTo 1 avg_battery_charge)),
     ("battery.charge", .num (roundTo 1 avg_battery_charge)),
     ("battery_runtime", runtime),
     ("battery.runtime", runtime),
     ("input_voltage", .num (roundTo 1 avg_input_voltage)),
     ("input.voltage", .num (roundTo 1 avg_input_voltage)),
     ("output_voltage", .num (roundTo 1 avg_output_voltage)),
     ("output.voltage", .num (roundTo 1 avg_output_voltage)),
     ("ups_count", .num ups_count),
     ("ups_online_count", .num acc.online_count),
     ("ups_offline_count", .num (ups_count - acc.online_count)),
     ("is_aggregated", .vbool true),
     ("source", .vstr "multi_ups_aggregation")]

/-! ## Numeric reduction (`cache.py`, `UPSDataCache.calculate_averages`)

The buffer is reduced through a pandas `DataFrame` in the source. The
embedding reproduces the pandas semantics relevant here:
* the frame's columns are the reading keys in order of first appearance
  (the `timestamp` column added from the buffer tuples is dropped from the
  output and is not a reading key; a reading carrying a literal `"timestamp"`
  key is outside the modelled domain);
* a column is numeric-dtyped exactly when every present value is a number or
  `None` and at least one is a number (`None` coerces to `NaN` in a numeric
  column; a column of only `None`s or with any string/boolean is `object`);
* `mean()` skips missing (`NaN`) cells, and the result is rounded to two
  decimals; `iloc[-1]` takes the last row's cell, which is missing (`NaN`)
  when the last buffered reading lacks the field — modelled as `none` in the
  `Option Val`-valued output dictionary. -/

/-- Column names of the buffer's DataFrame, in order of first appearance. -/
def columnsOf (buf : List (ℕ × Reading)) : List String :=
  buf.foldl
    (fun acc row =>
      row.2.foldl (fun a kv => if a.contains kv.1 then a else a ++ [kv.1]) acc)
    []

/-- The cells of one column: per buffered reading, the value stored for the
field (or `none` when the reading lacks it). -/
def colVals (buf : List (ℕ × Reading)) (f : String) : List (Option Val) :=
  buf.map (fun row => pyGetO row.2 f)

/-- Whether a column carries a numeric dtype in pandas: all present values
numbers or `None`, with at least one number. -/
def isNumCol (vs : List (Option Val)) : Bool :=
  (vs.filterMap id).all (fun v => match v with | .num _ => true | .vnone => true | _ => false)
    && (vs.filterMap id).any (fun v => match v with | .num _ => true | _ => false)

/-- The numeric cells of a column (missing cells and `None`s excluded, as by
`mean()`'s NaN skipping). -/
def colNums (vs : List (Option Val)) : List ℚ :=
  vs.filterMap (fun ov => match ov with | some (.num q) => some q | _ => none)

/-- `calculate_averages`: `None` on an empty buffer; otherwise a dictionary
giving, for each numeric column, the mean of its numeric cells rounded to two
decimals, and for every other column the last row's cell (`none` models a
`NaN` cell in the output). -/
def calculate_averages (buf : List (ℕ × Reading)) :
    Option (List (String × Option Val)) :=
  if buf = [] then none
  else
    let cols := (columnsOf buf).filter (fun c => c ≠ "timestamp")
    let averages := (cols.filter (fun f => isNumCol (colVals buf f))).map
      (fun f =>
        let nums := colNums (colVals buf f)
        (f, some (Val.num (roundTo 2 (nums.sum / nums.length)))))
    let lasts := (cols.filter (fun f => ¬ isNumCol (colVals buf f))).map
      (fun f => (f, pyGetO ((buf.getLast?.getD (0, [])).2) f))
    some (averages ++ lasts)

/-! ## Change-gated publisher (`cache.py`, `broadcast_cache_update` and
`broadcast_multi_ups_update`) -/

/-- The fixed watch list of the change gate. -/
def importantMetrics : List String :=
  ["ups_load", "battery_charge", "ups_realpower", "input_voltage"]

/-- `float(value or 0)`: falsy values (`None`, 0, `False`, the empty string)
give 0.0; a non-empty string goes through `parse`, `none` modelling the raised
`ValueError`. -/
def pyFloatOr0 (parse : String → Option ℚ) : Val → Option ℚ
  | .num q => some q
  | .vnone => some 0
  | .vbool b => some (if b then 1 else 0)
  | .vstr s => if s = "" then some 0 else parse s

/-- One iteration of the watched-metric loop: the metric is considered only
when present in both views; both values of a considered metric are coerced
with `float(· or 0)` and compared against the 1.0 threshold, a coercion
failure counting as a significant change. -/
def metricSignificant (parse : String → Option ℚ)
    (bd lb : List (String × Val)) (m : String) : Bool :=
  match pyGetO bd m, pyGetO lb m with
  | some v1, some v2 =>
    match pyFloatOr0 parse v1, pyFloatOr0 parse v2 with
    | some a, some b => decide (1 ≤ |a - b|)
    | _, _ => true
  | _, _ => false

/-- The status-change test: `broadcast_data.get('ups_status') !=
last_broadcast.get('ups_status')` (an absent key reads as `None`). -/
def statusChangedB (bd lb : List (String × Val)) : Bool :=
  ! pyEq ((pyGetO bd "ups_status").getD .vnone) ((pyGetO lb "ups_status").getD .vnone)

/-- The notify/suppress decision of `broadcast_cache_update`: always notify
with no prior broadcast; otherwise notify exactly when the status changed or
some watched metric changed significantly. -/
def broadcastDecision (parse : String → Option ℚ)
    (last : Option (List (String × Val))) (bd : List (String × Val)) : Bool :=
  match last with
  | none => true
  | some lb => statusChangedB bd lb || importantMetrics.any (metricSignificant parse bd lb)

/-- The notify/suppress decision of `broadcast_multi_ups_update` on the
aggregated view (same data, phrased as in the source: status first, then the
numeric loop only when the status did not force a broadcast). -/
def broadcastMultiDecision (parse : String → Option ℚ)
    (last : Option (List (String × Val))) (bd : List (String × Val)) : Bool :=
  let should1 := last.isNone || statusChangedB bd (last.getD [])
  if should1 then true
  else
    match last with
    | none => false
    | some lb => importantMetrics.any (metricSignificant parse bd lb)

/-! ## Cache state and scheduler (`cache.py`, `UPSDataCache`) -/

/-- The scheduler/buffer state of a `UPSDataCache` instance (single-UPS path).
The DataFrame mirror `self.df` is derived from `data` on every append and is
not separate state; `hourly_data` entries keep the `(timestamp,
ups_realpower)` pair appended by the save step. -/
structure CacheState where
  size : ℕ
  data : List (ℕ × Reading)
  next_save_time : Option ℕ
  next_hour : Option ℕ
  hourly_data : List (ℕ × Option Val)
  last_daily_aggregation : Option ℕ
  last_broadcast : Option (List (String × Val))
deriving DecidableEq, Repr

/-- A freshly constructed cache (`UPSDataCache(size)`). -/
def initCache (size : ℕ) : CacheState :=
  { size := size, data := [], next_save_time := none, next_hour := none,
    hourly_data := [], last_daily_aggregation := none, last_broadcast := none }

/-- `get_next_minute`: the next whole minute strictly after the current wall
clock (the `current_time` argument is ignored by the source, which reads
`datetime.now` afresh). -/
def get_next_minute (now : ℕ) : ℕ := (now / 60 + 1) * 60

/-- `get_next_hour`: the next whole hour strictly after the current wall clock
(the `current_time` argument is ignored by the source, which reads
`datetime.now` afresh). -/
def get_next_hour (now : ℕ) : ℕ := (now / 3600 + 1) * 3600

/-- `is_save_time`: false while `next_save_time` is unset, else true exactly
when the current wall clock has reached it. -/
def is_save_time (s : CacheState) (now : ℕ) : Bool :=
  match s.next_save_time with
  | none => false
  | some t => t ≤ now

/-- `broadcast_cache_update(data)`: no-op on empty data; otherwise build the
broadcast payload (a timestamp plus all data fields), decide via the change
gate, and on notify store the payload as the new prior view. -/
def broadcast_cache_update (parse : String → Option ℚ) (s : CacheState)
    (d : List (String × Val)) (now : ℕ) : CacheState :=
  if d = [] then s
  else
    let bd := ("timestamp", Val.vstr (toString now)) :: d
    if broadcastDecision parse s.last_broadcast bd then
      { s with last_broadcast := some bd }
    else s

/-- The key-normalization applied to every reading at ingestion:
`key.replace('.', '_')`, a code-point-wise map since the pattern is the single
character `'.'`. -/
def formatKey (k : String) : String :=
  String.mk (k.data.map (fun c => if c = '.' then '_' else c))

/-- The normalization loop of `UPSDataCache.add` over a reading's items. -/
def formatReadingSingle (d : List (String × Val)) : List (String × Val) :=
  d.map (fun kv => (formatKey kv.1, kv.2))

/-- The (textually duplicated) normalization loop of
`UPSDataCache.add_multi_ups` over one device's items. -/
def formatReadingMulti (d : List (String × Val)) : List (String × Val) :=
  d.map (fun kv => (formatKey kv.1, kv.2))

/-- `UPSDataCache.add(timestamp, data)`: lazily initialize `next_save_time`
from the wall clock, normalize the reading's keys, append it to the buffer,
and run the change-gated broadcast. -/
def cacheAdd (parse : String → Option ℚ) (s : CacheState) (timestamp : ℕ)
    (d : List (String × Val)) : CacheState :=
  let s := if s.next_save_time = none then
      { s with next_save_time := some (get_next_minute timestamp) } else s
  let formatted := formatReadingSingle d
  let s := { s with data := s.data ++ [(timestamp, formatted)] }
  broadcast_cache_update parse s formatted timestamp

/-- `should_aggregate_daily`: on first call initialize the 04:00 UTC boundary
(today if not yet past four o'clock, else tomorrow) and report false;
afterwards report due when the wall clock reached the boundary, advancing it
by one day. -/
def should_aggregate_daily (s : CacheState) (now : ℕ) : CacheState × Bool :=
  match s.last_daily_aggregation with
  | none =>
    let base := now / 86400 * 86400 + 4 * 3600
    let day_start := if 4 ≤ now / 3600 % 24 then base + 86400 else base
    ({ s with last_daily_aggregation := some day_start }, false)
  | some t =>
    if t ≤ now then ({ s with last_daily_aggregation := some (t + 86400) }, true)
    else (s, false)

/-- Outcomes of the external collaborators used during one save step:
whether the `db.session.add`/`commit` of the minute record succeeds, and the
result of the hour-window query (`none` models the query raising; the
returned power values only feed the persisted record's hourly field, not the
cache state). `aggregate_daily_data` touches only external storage and has
its own exception handler, so it needs no outcome here. -/
structure Env where
  persistOk : Bool
  hourQuery : Option (List (Option ℚ))
deriving DecidableEq, Repr

/-- The tail of a successful-so-far save: persist the minute record (a
failure is caught by the outer handler, leaving the state as it stands and
returning `False`), then clear the buffer, advance `next_save_time` to the
next whole minute from the wall clock, and run the daily-aggregation check. -/
def finishSave (env : Env) (s : CacheState) (now : ℕ) : CacheState × Bool :=
  if ¬ env.persistOk then (s, false)
  else
    let s := { s with data := [], next_save_time := some (get_next_minute now) }
    let s := (should_aggregate_daily s now).1
    (s, true)

/-- `calculate_and_save_averages`: initialize `next_hour` if unset; stop
unless the minute boundary is reached and the reduction yields a non-empty
record; append the record's `ups_realpower` (when present) to the hourly
accumulation list; when the wall clock reached `next_hour`, run the
hour-window query (its values feed only the persisted record), clear the
hourly list and resync `next_hour` to the clock; finally persist and, on
success, clear the buffer and advance the minute boundary. Any raise inside
the body is caught and turned into a `false` return with the state as
mutated so far. This definition is the body after the lazy `next_hour`
initialization (`csaInit` below). -/
def csaCore (env : Env) (s : CacheState) (now : ℕ) : CacheState × Bool :=
  if ¬ is_save_time s now then (s, false)
  else
    match calculate_averages s.data with
    | none => (s, false)
    | some avs =>
      if avs = [] then (s, false)
      else
        match pyGetO avs "ups_realpower" with
        | some rp =>
          let s := { s with
            hourly_data := s.hourly_data ++ [(s.next_save_time.getD 0, rp)] }
          if s.next_hour.getD 0 ≤ now then
            match env.hourQuery with
            | none => (s, false)
            | some _ =>
              let s := { s with hourly_data := [], next_hour := some (get_next_hour now) }
              finishSave env s now
          else finishSave env s now
        | none => finishSave env s now

/-- The wall-clock-alignment state after the lazy `next_hour` initialization
performed at the top of `calculate_and_save_averages`. -/
def csaInit (s : CacheState) (now : ℕ) : CacheState :=
  if s.next_hour = none then { s with next_hour := some (get_next_hour now) } else s

/-- `calculate_and_save_averages`: the lazy `next_hour` initialization
followed by the body above. -/
def calculate_and_save_averages (env : Env)
    (s : CacheState) (now : ℕ) : CacheState × Bool :=
  csaCore env (csaInit s now) now

example :
    calculate_averages [(0, [("ups_load", .num 10), ("ups_status", .vstr "OL")]),
      (60, [("ups_load", .num 20), ("ups_status", .vstr "OL")]),
      (120, [("ups_load", .num 30), ("ups_status", .vstr "OB")])] =
    some [("ups_load", some (.num 20)), ("ups_status", some (.vstr "OB"))] := by
  with_unfolding_all decide

/-! ## Helper lemmas and claim-side formulations for the status resolver -/

/-- Claim-side severity: exact-match lookup after uppercasing and trimming,
else the maximum severity among table keys occurring as substrings (0, the
`UNKNOWN` severity, when no key matches). -/
def declSeverity (s : String) : ℕ :=
  let t := pyStrip (pyUpper s)
  match pyGetO STATUS_PRIORITY t with
  | some p => p
  | none => ((STATUS_PRIORITY.filter (fun kv => strContains t kv.1)).map Prod.snd).foldr max 0

/-- Recursive form of the first-seen-wins maximum fold in `get_worst_status`. -/
def wfold (w : Option String) : List (Option String) → Option String
  | [] => w
  | s :: t => if get_status_priority s > get_status_priority w then wfold s t else wfold w t

lemma gws_foldl_eq_wfold (rest : List (Option String)) :
    ∀ w, (rest.foldl
      (fun acc s =>
        if get_status_priority s > acc.2 then (s, get_status_priority s) else acc)
      (w, get_status_priority w)).1 = wfold w rest := by
  induction rest with
  | nil => intro w; rfl
  | cons s t ih =>
    intro w
    by_cases h : get_status_priority s > get_status_priority w
    · simp only [List.foldl_cons, wfold, if_pos h]
      exact ih s
    · simp only [List.foldl_cons, wfold, if_neg h]
      exact ih w

lemma wfold_spec (rest : List (Option String)) :
    ∀ w, ∃ l1 x l2, w :: rest = l1 ++ x :: l2 ∧ wfold w rest = x ∧
      (∀ y ∈ w :: rest, get_status_priority y ≤ get_status_priority x) ∧
      (∀ y ∈ l1, get_status_priority y < get_status_priority x) := by
  induction rest with
  | nil =>
    intro w
    exact ⟨[], w, [], rfl, rfl, by intro y hy; simp at hy; subst hy; exact le_refl _,
      by intro y hy; simp at hy⟩
  | cons s t ih =>
    intro w
    by_cases h : get_status_priority s > get_status_priority w
    · obtain ⟨l1, x, l2, hdec, heq, hmax, hlt⟩ := ih s
      refine ⟨w :: l1, x, l2, by simpa using congrArg (w :: ·) hdec, ?_, ?_, ?_⟩
      · simp only [wfold, if_pos h]; exact heq
      · have hsx : get_status_priority s ≤ get_status_priority x :=
          hmax s (by simp)
        intro y hy
        rcases List.mem_cons.mp hy with hy | hy
        · subst hy; exact le_of_lt (lt_of_lt_of_le h hsx)
        · exact hmax y (hdec ▸ hy)
      · intro y hy
        rcases List.mem_cons.mp hy with hy | hy
        · subst hy
          exact lt_of_lt_of_le h (hmax s (by simp))
        · exact hlt y hy
    · obtain ⟨l1, x, l2, hdec, heq, hmax, hlt⟩ := ih w
      cases l1 with
      | nil =>
        simp only [List.nil_append] at hdec
        obtain ⟨hxw, hl2⟩ : w = x ∧ t = l2 := by
          constructor <;> injection hdec
        subst hxw
        subst hl2
        refine ⟨[], w, s :: t, rfl, ?_, ?_, by intro y hy; simp at hy⟩
        · simp only [wfold, if_neg h]; exact heq
        · intro y hy
          rcases List.mem_cons.mp hy with hy | hy
          · subst hy; exact le_refl _
          · rcases List.mem_cons.mp hy with hy | hy
            · subst hy; exact le_of_not_lt h
            · exact hmax y (by simp [hy])
      | cons w' l1' =>
        have hdec' : w :: t = w' :: (l1' ++ x :: l2) := by simpa using hdec
        have hw' : w = w' := by injection hdec'
        subst hw'
        have ht : t = l1' ++ x :: l2 := by injection hdec'
        have hwx : get_status_priority w < get_status_priority x := hlt w (by simp)
        refine ⟨w :: s :: l1', x, l2, by simp [ht], ?_, ?_, ?_⟩
        · simp only [wfold, if_neg h]; exact heq
        · intro y hy
          rcases List.mem_cons.mp hy with hy | hy
          · subst hy; exact le_of_lt hwx
          · rcases List.mem_cons.mp hy with hy | hy
            · subst hy; exact le_trans (le_of_not_lt h) (le_of_lt hwx)
            · exact hmax y (List.mem_cons_of_mem w hy)
        · intro y hy
          rcases List.mem_cons.mp hy with hy | hy
          · subst hy; exact hwx
          · rcases List.mem_cons.mp hy with hy | hy
            · subst hy; exact lt_of_le_of_lt (le_of_not_lt h) hwx
            · exact hlt y (by simp [hy])

lemma foldl_max_filter (t : String) (l : List (String × ℕ)) :
    ∀ a, l.foldl (fun acc kv => if strContains t kv.1 then max acc kv.2 else acc) a
      = max a (((l.filter (fun kv => strContains t kv.1)).map Prod.snd).foldr max 0) := by
  induction l with
  | nil => intro a; simp
  | cons kv tl ih =>
    intro a
    by_cases h : strContains t kv.1
    · simp only [List.foldl_cons, List.filter_cons, h, if_true, List.map_cons,
        List.foldr_cons]
      rw [ih (max a kv.2)]
      omega
    · simp only [List.foldl_cons, List.filter_cons, h, Bool.false_eq_true,
        if_false]
      exact ih a

/-- C5: the status resolver performs an exact-match lookup in the fixed table
after uppercasing and trimming, falls back to the maximum severity among table
keys occurring as substrings, and returns the `UNKNOWN` severity (0) when no
key matches; `worst` of an empty sequence is the string `"UNKNOWN"`, and over
a non-empty sequence it returns the literal input element whose severity is
maximal, the first-seen element winning ties (every earlier element has
strictly smaller severity). -/
theorem C5_status_resolver :
    (∀ s : String, get_status_priority (some s) = declSeverity s) ∧
    get_worst_status [] = some "UNKNOWN" ∧
    (∀ l : List (Option String), l ≠ [] →
      ∃ l1 x l2, l = l1 ++ x :: l2 ∧ get_worst_status l = x ∧
        (∀ y ∈ l, get_status_priority y ≤ get_status_priority x) ∧
        (∀ y ∈ l1, get_status_priority y < get_status_priority x)) := by
  refine ⟨?_, rfl, ?_⟩
  · intro s
    by_cases hs : s = ""
    · subst hs; decide
    · cases hmatch : pyGetO STATUS_PRIORITY (pyStrip (pyUpper s)) with
      | some p => simp [get_status_priority, declSeverity, if_neg hs, hmatch]
      | none =>
        simp only [get_status_priority, declSeverity, if_neg hs, hmatch]
        rw [foldl_max_filter, Nat.zero_max]
        split <;> omega
  · intro l hl
    cases l with
    | nil => exact absurd rfl hl
    | cons s₀ rest =>
      obtain ⟨l1, x, l2, hdec, heq, hmax, hlt⟩ := wfold_spec rest s₀
      exact ⟨l1, x, l2, hdec, by
        simpa only [get_worst_status, gws_foldl_eq_wfold] using heq, hmax, hlt⟩

/-- C5 witness: the resolver theorem applied to the concrete status list
`["OL", "OB DISCHRG", "LB"]` of the spec's example. -/
theorem C5_status_resolver_witness :
    ([some "OL", some "OB DISCHRG", some "LB"] ≠ ([] : List (Option String))) ∧
    (∃ l1 x l2, [some "OL", some "OB DISCHRG", some "LB"] = l1 ++ x :: l2 ∧
      get_worst_status [some "OL", some "OB DISCHRG", some "LB"] = x ∧
      (∀ y ∈ [some "OL", some "OB DISCHRG", some "LB"],
        get_status_priority y ≤ get_status_priority x) ∧
      (∀ y ∈ l1, get_status_priority y < get_status_priority x)) :=
  ⟨by decide, C5_status_resolver.2.2 _ (by decide)⟩

/-! ## Key normalization (claims about `add` / `add_multi_ups`) -/

/-- Claim-side: the dot-separated spelling of a canonical (underscore) field
name, obtained by turning each underscore into a dot. -/
def toDots (k : String) : String :=
  String.mk (k.data.map (fun c => if c = '_' then '.' else c))

lemma map_id_of_fixed {f : Char → Char} :
    ∀ l : List Char, (∀ c ∈ l, f c = c) → l.map f = l := by
  intro l
  induction l with
  | nil => intro _; rfl
  | cons c t ih =>
    intro h
    simp only [List.map_cons, h c (by simp)]
    rw [ih (fun d hd => h d (by simp [hd]))]

lemma formatKey_id (k : String) (hk : ∀ c ∈ k.data, c ≠ '.') : formatKey k = k := by
  unfold formatKey
  rw [map_id_of_fixed k.data (fun c hc => by simp [hk c hc])]

lemma formatKey_toDots (k : String) (hk : ∀ c ∈ k.data, c ≠ '.') :
    formatKey (toDots k) = k := by
  unfold formatKey toDots
  simp only [List.map_map]
  rw [map_id_of_fixed k.data ?hfix]
  case hfix =>
    intro c hc
    by_cases h : c = '_'
    · simp [Function.comp, h]
    · simp [Function.comp, h, hk c hc]

/-- C9: at ingestion time (both the single-device `add` loop and the
multi-device `add_multi_ups` loop), the dot-separated spelling and the
underscore-separated spelling of a field name normalize to the identical
canonical underscore key, and the associated value is left unchanged. -/
theorem C9_key_normalization (k : String) (v : Val) (hk : ∀ c ∈ k.data, c ≠ '.') :
    formatReadingSingle [(toDots k, v)] = [(k, v)] ∧
    formatReadingSingle [(k, v)] = [(k, v)] ∧
    formatReadingMulti [(toDots k, v)] = [(k, v)] ∧
    formatReadingMulti [(k, v)] = [(k, v)] := by
  unfold formatReadingSingle formatReadingMulti
  simp only [List.map_cons, List.map_nil, formatKey_toDots k hk, formatKey_id k hk]
  exact ⟨trivial, trivial, trivial, trivial⟩

/-- C9 witness: both spellings of `battery_charge` normalize to the same
canonical key with the value untouched, on both ingestion paths. -/
theorem C9_key_normalization_witness :
    (∀ c ∈ ("battery_charge" : String).data, c ≠ '.') ∧
    (formatReadingSingle [(toDots "battery_charge", Val.num 90)] =
      [("battery_charge", Val.num 90)] ∧
     formatReadingSingle [("battery_charge", Val.num 90)] =
      [("battery_charge", Val.num 90)] ∧
     formatReadingMulti [(toDots "battery_charge", Val.num 90)] =
      [("battery_charge", Val.num 90)] ∧
     formatReadingMulti [("battery_charge", Val.num 90)] =
      [("battery_charge", Val.num 90)]) :=
  ⟨by decide, C9_key_normalization "battery_charge" (Val.num 90) (by decide)⟩

/-- C8 counterexample: the empty-input aggregate record carries neither an
`ups_offline_count` entry nor the `is_aggregated` flag (both lookups are
absent), contrary to the claim that all three device counts are present and
that the record carries the derived-value flag. -/
theorem C8_empty_aggregate_counterexample :
    pyGetO (aggregate_ups_data (fun _ => none) []) "is_aggregated" = none ∧
    pyGetO (aggregate_ups_data (fun _ => none) []) "ups_offline_count" = none ∧
    pyGetO (aggregate_ups_data (fun _ => none) []) "ups_status" = some (.vstr "UNKNOWN") := by
  refine ⟨rfl, rfl, rfl⟩

/-- C8 amended: aggregating an empty input map produces the zero-valued
record with status `UNKNOWN`, zero metric fields, and total/online device
counts 0 — but with no offline-count entry and no `is_aggregated` flag (the
derived-value metadata is only attached to non-empty aggregations). -/
theorem C8_empty_aggregate (parse : String → Option ℚ) :
    aggregate_ups_data parse [] =
      [("ups_status", .vstr "UNKNOWN"),
       ("ups_realpower", .num 0),
       ("ups_load", .num 0),
       ("battery_charge", .num 0),
       ("battery_runtime", .num 0),
       ("input_voltage", .num 0),
       ("output_voltage", .num 0),
       ("ups_count", .num 0),
       ("ups_online_count", .num 0)] ∧
    pyGetO (aggregate_ups_data parse []) "ups_offline_count" = none ∧
    pyGetO (aggregate_ups_data parse []) "is_aggregated" = none := by
  exact ⟨rfl, rfl, rfl⟩

/-! ## Fold characterization of the aggregation loop -/

/-- The runtime-minimum update of the aggregation loop (`None` means no
device has reported a positive runtime yet). -/
def optMin (o : Option ℚ) (x : ℚ) : Option ℚ :=
  match o with
  | none => some x
  | some m => some (min m x)

lemma foldl_optMin_some (xs : List ℚ) :
    ∀ m, xs.foldl optMin (some m) = some (xs.foldl min m) := by
  induction xs with
  | nil => intro m; rfl
  | cons x t ih => intro m; simp only [List.foldl_cons, optMin]; exact ih (min m x)

lemma foldl_optMin_none (xs : List ℚ) :
    xs.foldl optMin none = xs.minimum? := by
  cases xs with
  | nil => rfl
  | cons x t =>
    simp only [List.foldl_cons, optMin, List.minimum?]
    exact foldl_optMin_some t x

/-- Characterization of the aggregation loop: folding `aggStep` accumulates,
for each metric, exactly the claimed list-level quantity (sum of all real
powers, sum and count of the strictly positive loads / charges / voltages,
first-seen-preserving minimum over positive runtimes, count of online
devices, and the status list in order). -/
lemma aggregate_foldl (parse : String → Option ℚ) (l : List Reading) :
    ∀ a : AggAcc, l.foldl (aggStep parse) a =
      { statuses := a.statuses ++ l.map (fun r => statusOpt (agg_status r))
        total_realpower := a.total_realpower + (l.map (devRealpower parse)).sum
        total_load := a.total_load + ((l.map (devLoad parse)).filter (fun x => 0 < x)).sum
        load_count := a.load_count + ((l.map (devLoad parse)).filter (fun x => 0 < x)).length
        total_battery_charge := a.total_battery_charge +
          ((l.map (devBatteryCharge parse)).filter (fun x => 0 < x)).sum
        battery_count := a.battery_count +
          ((l.map (devBatteryCharge parse)).filter (fun x => 0 < x)).length
        total_input_voltage := a.total_input_voltage +
          ((l.map (devInputVoltage parse)).filter (fun x => 0 < x)).sum
        input_voltage_count := a.input_voltage_count +
          ((l.map (devInputVoltage parse)).filter (fun x => 0 < x)).length
        total_output_voltage := a.total_output_voltage +
          ((l.map (devOutputVoltage parse)).filter (fun x => 0 < x)).sum
        output_voltage_count := a.output_voltage_count +
          ((l.map (devOutputVoltage parse)).filter (fun x => 0 < x)).length
        min_runtime := ((l.map (devRuntime parse)).filter (fun x => 0 < x)).foldl
          optMin a.min_runtime
        online_count := a.online_count +
          (l.filter (fun r => isOnline (statusOpt (agg_status r)))).length } := by
  induction l with
  | nil =>
    intro a
    simp
  | cons r t ih =>
    intro a
    rw [List.foldl_cons, ih (aggStep parse a r)]
    simp only [aggStep, AggAcc.mk.injEq, List.map_cons, List.filter_cons,
      List.sum_cons, optMin]
    refine ⟨by simp, by ring, ?_, ?_, ?_, ?_, ?_, ?_, ?_, ?_, ?_, ?_⟩ <;>
      by_cases h1 : 0 < devLoad parse r <;>
      by_cases h2 : 0 < devBatteryCharge parse r <;>
      by_cases h3 : 0 < devInputVoltage parse r <;>
      by_cases h4 : 0 < devOutputVoltage parse r <;>
      by_cases h5 : 0 < devRuntime parse r <;>
      by_cases h6 : isOnline (statusOpt (agg_status r)) <;>
      simp [h1, h2, h3, h4, h5, h6, optMin] <;>
      first
        | ring
        | omega
        | (cases a.min_runtime <;> simp [optMin])

/-- Evaluated form of `aggregate_ups_data` on a non-empty device list: the
output dict literal with every accumulator replaced by its list-level
characterization. -/
lemma aggregate_nonempty_eq (parse : String → Option ℚ) (l : List Reading)
    (hne : l ≠ []) :
    aggregate_ups_data parse l =
      (let worst := statusVal (get_worst_status (l.map (fun r => statusOpt (agg_status r))))
      let power : Val := .num (roundTo 2 (l.map (devRealpower parse)).sum)
      let loadPos := (l.map (devLoad parse)).filter (fun x => 0 < x)
      let loadV : Val := .num (roundTo 1
        (if 0 < loadPos.length then loadPos.sum / loadPos.length else 0))
      let bcPos := (l.map (devBatteryCharge parse)).filter (fun x => 0 < x)
      let bcV : Val := .num (roundTo 1
        (if 0 < bcPos.length then bcPos.sum / bcPos.length else 0))
      let ivPos := (l.map (devInputVoltage parse)).filter (fun x => 0 < x)
      let ivV : Val := .num (roundTo 1
        (if 0 < ivPos.length then ivPos.sum / ivPos.length else 0))
      let ovPos := (l.map (devOutputVoltage parse)).filter (fun x => 0 < x)
      let ovV : Val := .num (roundTo 1
        (if 0 < ovPos.length then ovPos.sum / ovPos.length else 0))
      let rtV : Val :=
        match ((l.map (devRuntime parse)).filter (fun x => 0 < x)).minimum? with
        | some m => .num (roundTo 0 m)
        | none => .num 0
      let onl := (l.filter (fun r => isOnline (statusOpt (agg_status r)))).length
      [("ups_status", worst), ("ups.status", worst),
       ("ups_realpower", power), ("ups.realpower", power),
       ("ups_load", loadV), ("ups.load", loadV),
       ("battery_charge", bcV), ("battery.charge", bcV),
       ("battery_runtime", rtV), ("battery.runtime", rtV),
       ("input_voltage", ivV), ("input.voltage", ivV),
       ("output_voltage", ovV), ("output.voltage", ovV),
       ("ups_count", .num l.length), ("ups_online_count", .num onl),
       ("ups_offline_count", .num ((l.length : ℚ) - onl)),
       ("is_aggregated", .vbool true),
       ("source", .vstr "multi_ups_aggregation")]) := by
  unfold aggregate_ups_data
  rw [if_neg hne, aggregate_foldl parse l initAcc]
  simp only [initAcc, List.nil_append, zero_add, foldl_optMin_none]

/-- Claim-side mean over the strictly positive entries of a list (0 when no
entry is positive). -/
def meanPos (xs : List ℚ) : ℚ :=
  if xs.filter (fun x => 0 < x) = [] then 0
  else (xs.filter (fun x => 0 < x)).sum / (xs.filter (fun x => 0 < x)).length

lemma meanPos_eq (xs : List ℚ) :
    (if 0 < (xs.filter (fun x => 0 < x)).length
     then (xs.filter (fun x => 0 < x)).sum / ((xs.filter (fun x => 0 < x)).length : ℚ)
     else 0) = meanPos xs := by
  unfold meanPos
  by_cases h : xs.filter (fun x => 0 < x) = []
  · simp [h]
  · simp [h, List.length_pos.mpr h]

/-- C4: on every non-empty input, the composite aggregate reports the sum of
all devices' real power (non-numeric coerced to 0) rounded to 2 decimals; the
mean over devices reporting a strictly positive load / battery charge / input
voltage / output voltage (0 when none does) rounded to 1 decimal; and the
minimum over devices reporting a strictly positive runtime (0 when none does)
rounded to 0 decimals. -/
theorem C4_composite_aggregate (parse : String → Option ℚ) (l : List Reading)
    (hne : l ≠ []) (hok : ∀ r ∈ l, statusOK r = true) :
    pyGetO (aggregate_ups_data parse l) "ups_realpower" =
      some (.num (roundTo 2 (l.map (devRealpower parse)).sum)) ∧
    pyGetO (aggregate_ups_data parse l) "ups_load" =
      some (.num (roundTo 1 (meanPos (l.map (devLoad parse))))) ∧
    pyGetO (aggregate_ups_data parse l) "battery_charge" =
      some (.num (roundTo 1 (meanPos (l.map (devBatteryCharge parse))))) ∧
    pyGetO (aggregate_ups_data parse l) "input_voltage" =
      some (.num (roundTo 1 (meanPos (l.map (devInputVoltage parse))))) ∧
    pyGetO (aggregate_ups_data parse l) "output_voltage" =
      some (.num (roundTo 1 (meanPos (l.map (devOutputVoltage parse))))) ∧
    pyGetO (aggregate_ups_data parse l) "battery_runtime" =
      some (match ((l.map (devRuntime parse)).filter (fun x => 0 < x)).minimum? with
            | some m => Val.num (roundTo 0 m)
            | none => Val.num 0) := by
  rw [aggregate_nonempty_eq parse l hne]
  simp only [pyGetO, meanPos_eq]
  refine ⟨rfl, rfl, rfl, rfl, rfl, rfl⟩

/-- The three-device example input of the spec (real powers 100/50.5/0,
loads 40/0/60, runtimes 300/0/120). -/
def c4Readings : List Reading :=
  [ [("ups_status", Val.vstr "OL"), ("ups_realpower", Val.num 100),
     ("ups_load", Val.num 40), ("battery_runtime", Val.num 300)],
    [("ups_status", Val.vstr "OL"), ("ups_realpower", Val.num 50.5),
     ("ups_load", Val.num 0), ("battery_runtime", Val.num 0)],
    [("ups_status", Val.vstr "OB"), ("ups_realpower", Val.num 0),
     ("ups_load", Val.num 60), ("battery_runtime", Val.num 120)] ]

/-- C4 witness: the spec's three-device example — real powers
[100, 50.5, 0] sum to 150.5; loads [40, 0, 60] average to 50 over the two
positive reporters; runtimes [300, 0, 120] have minimum 120. -/
theorem C4_composite_aggregate_witness :
    c4Readings ≠ [] ∧ (∀ r ∈ c4Readings, statusOK r = true) ∧
    pyGetO (aggregate_ups_data (fun _ => none) c4Readings) "ups_realpower" =
      some (.num 150.5) ∧
    pyGetO (aggregate_ups_data (fun _ => none) c4Readings) "ups_load" =
      some (.num 50) ∧
    pyGetO (aggregate_ups_data (fun _ => none) c4Readings) "battery_runtime" =
      some (.num 120) := by
  refine ⟨by decide, by decide, ?_, ?_, ?_⟩
  · rw [(C4_composite_aggregate (fun _ => none) c4Readings (by decide) (by decide)).1]
    with_unfolding_all decide
  · rw [(C4_composite_aggregate (fun _ => none) c4Readings (by decide) (by decide)).2.1]
    with_unfolding_all decide
  · rw [(C4_composite_aggregate (fun _ => none) c4Readings (by decide)
      (by decide)).2.2.2.2.2]
    with_unfolding_all decide

/-- C10: on every non-empty input, each merged metric appears in the
aggregate record under both its underscore-spelled and its dot-spelled key
with equal values, and the record carries `is_aggregated = True` together
with the `multi_ups_aggregation` source marker. -/
theorem C10_dual_spelling (parse : String → Option ℚ) (l : List Reading)
    (hne : l ≠ []) (hok : ∀ r ∈ l, statusOK r = true) :
    (∃ v, pyGetO (aggregate_ups_data parse l) "ups_status" = some v ∧
          pyGetO (aggregate_ups_data parse l) "ups.status" = some v) ∧
    (∃ v, pyGetO (aggregate_ups_data parse l) "ups_realpower" = some v ∧
          pyGetO (aggregate_ups_data parse l) "ups.realpower" = some v) ∧
    (∃ v, pyGetO (aggregate_ups_data parse l) "ups_load" = some v ∧
          pyGetO (aggregate_ups_data parse l) "ups.load" = some v) ∧
    (∃ v, pyGetO (aggregate_ups_data parse l) "battery_charge" = some v ∧
          pyGetO (aggregate_ups_data parse l) "battery.charge" = some v) ∧
    (∃ v, pyGetO (aggregate_ups_data parse l) "battery_runtime" = some v ∧
          pyGetO (aggregate_ups_data parse l) "battery.runtime" = some v) ∧
    (∃ v, pyGetO (aggregate_ups_data parse l) "input_voltage" = some v ∧
          pyGetO (aggregate_ups_data parse l) "input.voltage" = some v) ∧
    (∃ v, pyGetO (aggregate_ups_data parse l) "output_voltage" = some v ∧
          pyGetO (aggregate_ups_data parse l) "output.voltage" = some v) ∧
    pyGetO (aggregate_ups_data parse l) "is_aggregated" = some (.vbool true) ∧
    pyGetO (aggregate_ups_data parse l) "source" =
      some (.vstr "multi_ups_aggregation") := by
  rw [aggregate_nonempty_eq parse l hne]
  simp only [pyGetO]
  exact ⟨⟨_, rfl, rfl⟩, ⟨_, rfl, rfl⟩, ⟨_, rfl, rfl⟩, ⟨_, rfl, rfl⟩,
    ⟨_, rfl, rfl⟩, ⟨_, rfl, rfl⟩, ⟨_, rfl, rfl⟩, rfl, rfl⟩

/-- C10 witness: the dual-spelling theorem applied to the concrete
three-device example input. -/
theorem C10_dual_spelling_witness :
    c4Readings ≠ [] ∧ (∀ r ∈ c4Readings, statusOK r = true) ∧
    ((∃ v, pyGetO (aggregate_ups_data (fun _ => none) c4Readings) "ups_realpower" = some v ∧
           pyGetO (aggregate_ups_data (fun _ => none) c4Readings) "ups.realpower" = some v) ∧
     pyGetO (aggregate_ups_data (fun _ => none) c4Readings) "is_aggregated" =
       some (.vbool true)) :=
  ⟨by decide, by decide,
    (C10_dual_spelling (fun _ => none) c4Readings (by decide) (by decide)).2.1,
    (C10_dual_spelling (fun _ => none) c4Readings (by decide) (by decide)).2.2.2.2.2.2.2.1⟩

/-! ## Change-gate claims -/

/-- The notification rule exactly as the claim states it: notify when there
is no prior view, the status differs, a watched metric differs numerically by
at least 1.0, or a watched metric is present in one view but absent or
non-numeric in the other (absence in either view forces a notification). -/
def claimNotifyRuleB (parse : String → Option ℚ)
    (last : Option (List (String × Val))) (bd : List (String × Val)) : Bool :=
  match last with
  | none => true
  | some lb =>
    statusChangedB bd lb ||
    importantMetrics.any (fun m =>
      match pyGetO bd m, pyGetO lb m with
      | some v1, some v2 =>
        match pyFloatOr0 parse v1, pyFloatOr0 parse v2 with
        | some a, some b => decide (1 ≤ |a - b|)
        | _, _ => true
      | none, none => false
      | _, _ => true)

/-- C3 counterexample: prior view `{ups_status: "OL", ups_load: 50}`, new view
lacking the watched `ups_load` field entirely. The claim's rule (absence in
either view forces a notification) says notify; the code skips a watched
metric that is not present in both views and suppresses. -/
theorem C3_change_gate_counterexample :
    broadcastDecision (fun _ => none)
      (some [("ups_status", .vstr "OL"), ("ups_load", .num 50)])
      [("timestamp", .vstr "t"), ("ups_status", .vstr "OL")] = false ∧
    claimNotifyRuleB (fun _ => none)
      (some [("ups_status", .vstr "OL"), ("ups_load", .num 50)])
      [("timestamp", .vstr "t"), ("ups_status", .vstr "OL")] = true := by
  constructor
  · rfl
  · rfl

/-- The amended notification rule: as the claim, except that a watched metric
is considered only when present in both views — a metric absent from either
view is skipped; present-in-both but failing numeric coercion (a non-empty,
non-parsing string) still forces a notification. -/
def amendedNotifyRule (parse : String → Option ℚ)
    (last : Option (List (String × Val))) (bd : List (String × Val)) : Prop :=
  last = none ∨
  ∃ lb, last = some lb ∧
    (pyEq ((pyGetO bd "ups_status").getD .vnone) ((pyGetO lb "ups_status").getD .vnone) = false ∨
     ∃ m ∈ importantMetrics, ∃ v1 v2,
       pyGetO bd m = some v1 ∧ pyGetO lb m = some v2 ∧
       ((∃ a b, pyFloatOr0 parse v1 = some a ∧ pyFloatOr0 parse v2 = some b ∧
          1 ≤ |a - b|) ∨
        pyFloatOr0 parse v1 = none ∨ pyFloatOr0 parse v2 = none))

lemma metricSignificant_iff (parse : String → Option ℚ)
    (bd lb : List (String × Val)) (m : String) :
    metricSignificant parse bd lb m = true ↔
      ∃ v1 v2, pyGetO bd m = some v1 ∧ pyGetO lb m = some v2 ∧
        ((∃ a b, pyFloatOr0 parse v1 = some a ∧ pyFloatOr0 parse v2 = some b ∧
           1 ≤ |a - b|) ∨
         pyFloatOr0 parse v1 = none ∨ pyFloatOr0 parse v2 = none) := by
  unfold metricSignificant
  cases h1 : pyGetO bd m with
  | none => simp
  | some v1 =>
    cases h2 : pyGetO lb m with
    | none => simp
    | some v2 =>
      cases h3 : pyFloatOr0 parse v1 with
      | none => simp [h3]
      | some a =>
        cases h4 : pyFloatOr0 parse v2 with
        | none => simp [h3, h4]
        | some b => simp [h3, h4]

/-- The multi-UPS gate computes the same boolean as the single-device gate
(status check first, numeric loop only when the status did not already force
a broadcast). -/
lemma multiDecision_eq (parse : String → Option ℚ)
    (last : Option (List (String × Val))) (bd : List (String × Val)) :
    broadcastMultiDecision parse last bd = broadcastDecision parse last bd := by
  cases last with
  | none => rfl
  | some lb =>
    unfold broadcastMultiDecision broadcastDecision
    by_cases hst : statusChangedB bd lb <;> simp [hst]

/-- C3 amended: both change-gated publishers (the single-device
`broadcast_cache_update` gate and the multi-device aggregated gate) notify
exactly when there is no prior published view, the status differs, or some
watched metric is present in both views and either differs numerically by at
least 1.0 or fails numeric coercion in one of them; a watched metric absent
from either view is skipped. On notify the broadcast payload replaces the
stored prior view; on suppress (and on empty data) the state is unchanged. -/
theorem C3_change_gate (parse : String → Option ℚ) :
    (∀ last bd, broadcastDecision parse last bd = true ↔
      amendedNotifyRule parse last bd) ∧
    (∀ last bd, broadcastMultiDecision parse last bd = true ↔
      amendedNotifyRule parse last bd) ∧
    (∀ (s : CacheState) (d : List (String × Val)) (now : ℕ), d ≠ [] →
      (broadcast_cache_update parse s d now).last_broadcast =
        (if broadcastDecision parse s.last_broadcast
            (("timestamp", Val.vstr (toString now)) :: d) = true
         then some (("timestamp", Val.vstr (toString now)) :: d)
         else s.last_broadcast)) ∧
    (∀ (s : CacheState) (now : ℕ), broadcast_cache_update parse s [] now = s) := by
  have hsingle : ∀ last bd, broadcastDecision parse last bd = true ↔
      amendedNotifyRule parse last bd := by
    intro last bd
    cases last with
    | none => simp [broadcastDecision, amendedNotifyRule]
    | some lb =>
      simp only [broadcastDecision, amendedNotifyRule, Bool.or_eq_true,
        List.any_eq_true, metricSignificant_iff, statusChangedB,
        Bool.not_eq_true', Option.some.injEq]
      constructor
      · rintro (h | h)
        · exact Or.inr ⟨lb, rfl, Or.inl h⟩
        · exact Or.inr ⟨lb, rfl, Or.inr h⟩
      · rintro (h | ⟨lb', hlb, h | h⟩)
        · exact absurd h (by simp)
        · cases hlb; exact Or.inl h
        · cases hlb; exact Or.inr h
  refine ⟨hsingle, ?_, ?_, ?_⟩
  · intro last bd
    rw [multiDecision_eq]
    exact hsingle last bd
  · intro s d now hd
    simp only [broadcast_cache_update, if_neg hd]
    split <;> rename_i h
    · simp_all
    · simp_all
  · intro s now
    rfl

/-- C3 witness: the amended gate theorem applied at a concrete prior view
with `ups_load = 50` and a new view with `ups_load = 50.4`, and the update
rule applied to a concrete non-empty payload on a fresh cache. -/
theorem C3_change_gate_witness :
    ([("ups_load", Val.num 51.1)] ≠ ([] : List (String × Val))) ∧
    (broadcastDecision (fun _ => none)
        (some [("timestamp", .vstr "0"), ("ups_load", .num 50)])
        [("timestamp", .vstr "1"), ("ups_load", .num 50.4)] = true ↔
      amendedNotifyRule (fun _ => none)
        (some [("timestamp", .vstr "0"), ("ups_load", .num 50)])
        [("timestamp", .vstr "1"), ("ups_load", .num 50.4)]) ∧
    (broadcast_cache_update (fun _ => none) (initCache 60)
        [("ups_load", Val.num 51.1)] 1).last_broadcast =
      (if broadcastDecision (fun _ => none) (initCache 60).last_broadcast
          (("timestamp", Val.vstr (toString 1)) :: [("ups_load", Val.num 51.1)]) = true
       then some (("timestamp", Val.vstr (toString 1)) :: [("ups_load", Val.num 51.1)])
       else (initCache 60).last_broadcast) :=
  ⟨by decide,
   (C3_change_gate (fun _ => none)).1 _ _,
   (C3_change_gate (fun _ => none)).2.2.1 (initCache 60) [("ups_load", Val.num 51.1)] 1
     (by decide)⟩

/-! ## Reduction claims -/

/-- Claim-side: the most recently buffered value for a field — the value the
field has in the newest buffered reading that contains it. -/
def mostRecentValue (buf : List (ℕ × Reading)) (f : String) : Option Val :=
  buf.reverse.findSome? (fun row => pyGetO row.2 f)

lemma pyGetO_append {α : Type} (l1 l2 : List (String × α)) (k : String) :
    pyGetO (l1 ++ l2) k =
      (match pyGetO l2 k with
       | some v => some v
       | none => pyGetO l1 k) := by
  induction l1 with
  | nil =>
    simp only [List.nil_append]
    cases pyGetO l2 k <;> rfl
  | cons kv t ih =>
    simp only [List.cons_append, pyGetO]
    rw [show pyGetO (t.append l2) k = pyGetO (t ++ l2) k from rfl, ih]
    cases pyGetO l2 k <;> cases pyGetO t k <;> rfl

lemma pyGetO_map_mem {α : Type} (g : String → α) :
    ∀ cols : List String, cols.Nodup → ∀ f : String,
      (f ∈ cols → pyGetO (cols.map (fun c => (c, g c))) f = some (g f)) ∧
      (f ∉ cols → pyGetO (cols.map (fun c => (c, g c))) f = none) := by
  intro cols
  induction cols with
  | nil => intro _ f; exact ⟨fun h => absurd h (by simp), fun _ => rfl⟩
  | cons c t ih =>
    intro hnd f
    have hndt : t.Nodup := hnd.of_cons
    have hct : c ∉ t := by
      intro hc
      exact (List.nodup_cons.mp hnd).1 hc
    constructor
    · intro hf
      rcases List.mem_cons.mp hf with hf | hf
      · subst hf
        simp only [List.map_cons, pyGetO, (ih hndt f).2 hct]
        simp
      · simp only [List.map_cons, pyGetO, (ih hndt f).1 hf]
    · intro hf
      simp only [List.map_cons, pyGetO, (ih hndt f).2 (fun hc => hf (by simp [hc]))]
      have : ¬ c = f := fun hc => hf (by simp [hc])
      simp [this]

lemma colsAux_nodup (l : List (String × Val)) :
    ∀ acc : List String, acc.Nodup →
      (l.foldl (fun a kv => if a.contains kv.1 then a else a ++ [kv.1]) acc).Nodup := by
  induction l with
  | nil => intro acc h; exact h
  | cons kv t ih =>
    intro acc h
    simp only [List.foldl_cons]
    by_cases hc : acc.contains kv.1
    · rw [if_pos hc]; exact ih acc h
    · rw [if_neg hc]
      refine ih (acc ++ [kv.1]) ?_
      have hmem : kv.1 ∉ acc := fun hm => hc (List.elem_eq_true_of_mem hm)
      simp [List.nodup_append, h, hmem]

lemma columnsOf_aux_nodup (buf : List (ℕ × Reading)) :
    ∀ acc : List String, acc.Nodup →
      (buf.foldl
        (fun acc row =>
          row.2.foldl (fun a kv => if a.contains kv.1 then a else a ++ [kv.1]) acc)
        acc).Nodup := by
  induction buf with
  | nil => intro acc h; exact h
  | cons row t ih =>
    intro acc h
    simp only [List.foldl_cons]
    exact ih _ (colsAux_nodup row.2 acc h)

lemma columnsOf_nodup (buf : List (ℕ × Reading)) : (columnsOf buf).Nodup :=
  columnsOf_aux_nodup buf [] List.nodup_nil

/-- C6 amended: reducing an empty buffer yields no record and the save step
then reports no flush; on a non-empty buffer the reduction outputs, for every
non-`timestamp` column, the mean of the column's numeric cells rounded to two
decimals when the column is numeric-dtyped (entries lacking the field and
`None` cells contribute to neither numerator nor denominator), and otherwise
the *last buffered row's* cell for that field — which is the missing-value
marker (`NaN`, modelled `none`) when the newest reading lacks the field,
rather than the most recent value the field ever had. -/
theorem C6_numeric_reduction :
    calculate_averages [] = none ∧
    (∀ (env : Env) (s : CacheState) (now : ℕ), s.data = [] →
      (calculate_and_save_averages env s now).2 = false) ∧
    (∀ buf : List (ℕ × Reading), buf ≠ [] →
      ∃ out, calculate_averages buf = some out ∧
        ∀ f ∈ (columnsOf buf).filter (fun c => c ≠ "timestamp"),
          (isNumCol (colVals buf f) = true →
            pyGetO out f = some (some (.num (roundTo 2
              ((colNums (colVals buf f)).sum / (colNums (colVals buf f)).length))))) ∧
          (isNumCol (colVals buf f) = false →
            pyGetO out f = some (pyGetO (buf.getLast?.getD (0, [])).2 f))) := by
  refine ⟨rfl, ?_, ?_⟩
  · intro env s now hdata
    have hd1 : (csaInit s now).data = [] := by
      unfold csaInit
      split <;> simpa using hdata
    unfold calculate_and_save_averages csaCore
    by_cases hsv : is_save_time (csaInit s now) now
    · rw [if_neg (by simp [hsv]), hd1,
        show calculate_averages [] = none from rfl]
    · rw [if_pos (by simp [hsv])]
  · intro buf hbuf
    have hnd : ((columnsOf buf).filter (fun c => c ≠ "timestamp")).Nodup :=
      (columnsOf_nodup buf).filter _
    have hndN : (((columnsOf buf).filter (fun c => c ≠ "timestamp")).filter
        (fun f => isNumCol (colVals buf f))).Nodup := hnd.filter _
    have hndL : (((columnsOf buf).filter (fun c => c ≠ "timestamp")).filter
        (fun f => ¬ isNumCol (colVals buf f))).Nodup := hnd.filter _
    refine ⟨(((columnsOf buf).filter (fun c => c ≠ "timestamp")).filter
        (fun f => isNumCol (colVals buf f))).map
        (fun f => (f, some (Val.num (roundTo 2
          ((colNums (colVals buf f)).sum / (colNums (colVals buf f)).length))))) ++
      (((columnsOf buf).filter (fun c => c ≠ "timestamp")).filter
        (fun f => ¬ isNumCol (colVals buf f))).map
        (fun f => (f, pyGetO (buf.getLast?.getD (0, [])).2 f)), ?_, ?_⟩
    · unfold calculate_averages
      rw [if_neg hbuf]
    · intro f hf
      constructor
      · intro hnum
        have hmemN : f ∈ ((columnsOf buf).filter (fun c => c ≠ "timestamp")).filter
            (fun f => isNumCol (colVals buf f)) := by
          rw [List.mem_filter]
          exact ⟨hf, by simp [hnum]⟩
        have hmemL : f ∉ ((columnsOf buf).filter (fun c => c ≠ "timestamp")).filter
            (fun f => ¬ isNumCol (colVals buf f)) := by
          rw [List.mem_filter]
          simp [hnum]
        rw [pyGetO_append,
          (pyGetO_map_mem _ _ hndL f).2 hmemL,
          (pyGetO_map_mem _ _ hndN f).1 hmemN]
      · intro hnum
        have hmemN : f ∉ ((columnsOf buf).filter (fun c => c ≠ "timestamp")).filter
            (fun f => isNumCol (colVals buf f)) := by
          rw [List.mem_filter]
          simp [hnum]
        have hmemL : f ∈ ((columnsOf buf).filter (fun c => c ≠ "timestamp")).filter
            (fun f => ¬ isNumCol (colVals buf f)) := by
          rw [List.mem_filter]
          exact ⟨hf, by simp [hnum]⟩
        rw [pyGetO_append, (pyGetO_map_mem _ _ hndL f).1 hmemL]

/-- C6 counterexample: buffer `[{ups_status:"OL"}, {ups_load:10}]`. The
`ups_status` column is non-numeric, and the last buffered reading lacks the
field, so the reduction outputs a missing value (`NaN`, modelled `none`) for
`ups_status` — not the most recently buffered value `"OL"` the claim
requires. -/
theorem C6_reduction_counterexample :
    calculate_averages [(0, [("ups_status", .vstr "OL")]), (60, [("ups_load", .num 10)])] =
      some [("ups_load", some (.num 10)), ("ups_status", none)] ∧
    mostRecentValue [(0, [("ups_status", .vstr "OL")]), (60, [("ups_load", .num 10)])]
      "ups_status" = some (.vstr "OL") ∧
    pyGetO [("ups_load", some (Val.num 10)), ("ups_status", (none : Option Val))]
      "ups_status" = some none ∧
    some (none : Option Val) ≠ some (some (Val.vstr "OL")) := by
  refine ⟨by with_unfolding_all decide, by decide, by decide, by decide⟩

/-- The spec's reduction example buffer: three readings with loads 10/20/30
and statuses OL/OL/OB. -/
def c6Buf : List (ℕ × Reading) :=
  [(0, [("ups_load", .num 10), ("ups_status", .vstr "OL")]),
   (60, [("ups_load", .num 20), ("ups_status", .vstr "OL")]),
   (120, [("ups_load", .num 30), ("ups_status", .vstr "OB")])]

/-- C6 witness: the reduction theorem applied to the spec's example buffer,
together with the concrete reduced record (`load = 20.0`, `status = "OB"`). -/
theorem C6_numeric_reduction_witness :
    c6Buf ≠ [] ∧
    (∃ out, calculate_averages c6Buf = some out ∧
      ∀ f ∈ (columnsOf c6Buf).filter (fun c => c ≠ "timestamp"),
        (isNumCol (colVals c6Buf f) = true →
          pyGetO out f = some (some (.num (roundTo 2
            ((colNums (colVals c6Buf f)).sum / (colNums (colVals c6Buf f)).length))))) ∧
        (isNumCol (colVals c6Buf f) = false →
          pyGetO out f = some (pyGetO (c6Buf.getLast?.getD (0, [])).2 f))) ∧
    calculate_averages c6Buf =
      some [("ups_load", some (.num 20)), ("ups_status", some (.vstr "OB"))] :=
  ⟨by decide, C6_numeric_reduction.2.2 c6Buf (by decide),
   by with_unfolding_all decide⟩

/-! ## Scheduler-step characterizations -/

lemma sad_preserves (s : CacheState) (now : ℕ) :
    (should_aggregate_daily s now).1.size = s.size ∧
    (should_aggregate_daily s now).1.data = s.data ∧
    (should_aggregate_daily s now).1.next_save_time = s.next_save_time ∧
    (should_aggregate_daily s now).1.next_hour = s.next_hour ∧
    (should_aggregate_daily s now).1.hourly_data = s.hourly_data := by
  unfold should_aggregate_daily
  cases s.last_daily_aggregation with
  | none => simp
  | some t => by_cases h : t ≤ now <;> simp [h]

lemma finishSave_spec (env : Env) (s : CacheState) (now : ℕ) :
    (env.persistOk = false ∧ finishSave env s now = (s, false)) ∨
    (env.persistOk = true ∧ (finishSave env s now).2 = true ∧
      (finishSave env s now).1.data = [] ∧
      (finishSave env s now).1.next_save_time = some (get_next_minute now) ∧
      (finishSave env s now).1.next_hour = s.next_hour ∧
      (finishSave env s now).1.hourly_data = s.hourly_data) := by
  by_cases hp : env.persistOk
  · right
    refine ⟨hp, ?_, ?_, ?_, ?_, ?_⟩ <;>
      simp only [finishSave, hp, not_true_eq_false, if_false] <;>
      simp [sad_preserves]
  · left
    refine ⟨by simpa using hp, ?_⟩
    simp [finishSave, hp]

lemma csaInit_fields (s : CacheState) (now : ℕ) :
    (csaInit s now).data = s.data ∧
    (csaInit s now).next_save_time = s.next_save_time ∧
    (csaInit s now).last_daily_aggregation = s.last_daily_aggregation ∧
    (csaInit s now).hourly_data = s.hourly_data ∧
    is_save_time (csaInit s now) now = is_save_time s now := by
  unfold csaInit
  split <;> simp [is_save_time]

lemma csaCore_not_due (env : Env) (s : CacheState) (now : ℕ)
    (h : is_save_time s now = false) : csaCore env s now = (s, false) := by
  unfold csaCore
  rw [if_pos (by simp [h])]

/-- Branch analysis of the save-step body: either it reports no save and
leaves the buffer, the minute boundary and the daily boundary untouched, or
it reports a save, the buffer is cleared and the minute boundary resyncs to
the next whole minute after the wall clock. -/
lemma csaCore_spec (env : Env) (s : CacheState) (now : ℕ) :
    ((csaCore env s now).2 = false ∧ (csaCore env s now).1.data = s.data ∧
     (csaCore env s now).1.next_save_time = s.next_save_time ∧
     (csaCore env s now).1.last_daily_aggregation = s.last_daily_aggregation) ∨
    ((csaCore env s now).2 = true ∧ (csaCore env s now).1.data = [] ∧
     (csaCore env s now).1.next_save_time = some (get_next_minute now)) := by
  unfold csaCore
  split
  · exact Or.inl ⟨rfl, rfl, rfl, rfl⟩
  · split
    · exact Or.inl ⟨rfl, rfl, rfl, rfl⟩
    · split
      · exact Or.inl ⟨rfl, rfl, rfl, rfl⟩
      · split
        · rename_i rp heq
          dsimp only
          split
          · split
            · exact Or.inl ⟨rfl, rfl, rfl, rfl⟩
            · rcases finishSave_spec env
                  { s with hourly_data := [], next_hour := some (get_next_hour now) }
                  now with ⟨_, hfe⟩ | ⟨_, ht, hd, hn, _, _⟩
              · rw [hfe]
                exact Or.inl ⟨rfl, rfl, rfl, rfl⟩
              · exact Or.inr ⟨ht, hd, hn⟩
          · rcases finishSave_spec env
                { s with hourly_data := s.hourly_data ++ [(s.next_save_time.getD 0, rp)] }
                now with ⟨_, hfe⟩ | ⟨_, ht, hd, hn, _, _⟩
            · rw [hfe]
              exact Or.inl ⟨rfl, rfl, rfl, rfl⟩
            · exact Or.inr ⟨ht, hd, hn⟩
        · rcases finishSave_spec env s now with ⟨_, hfe⟩ | ⟨_, ht, hd, hn, _, _⟩
          · rw [hfe]
            exact Or.inl ⟨rfl, rfl, rfl, rfl⟩
          · exact Or.inr ⟨ht, hd, hn⟩

/-- Branch analysis of the save-step body for the hour boundary: it leaves
`next_hour` unchanged when no save happens, when the reduced record lacks
`ups_realpower`, or when the hour boundary has not been reached; when the
hour rollup fires on a completed save, `next_hour` resyncs to the next whole
hour after the wall clock. -/
lemma csaCore_hour_spec (env : Env) (s : CacheState) (now : ℕ) :
    (csaCore env s now).2 = false ∨
    ((pyGetO ((calculate_averages s.data).getD []) "ups_realpower").isSome = false ∧
     (csaCore env s now).1.next_hour = s.next_hour) ∨
    (¬ s.next_hour.getD 0 ≤ now ∧ (csaCore env s now).1.next_hour = s.next_hour) ∨
    (s.next_hour.getD 0 ≤ now ∧
     (csaCore env s now).1.next_hour = some (get_next_hour now)) := by
  unfold csaCore
  split
  · exact Or.inl rfl
  · split
    · exact Or.inl rfl
    · split
      · exact Or.inl rfl
      · split
        · rename_i rp heq
          dsimp only
          split
          · split
            · exact Or.inl rfl
            · rcases finishSave_spec env
                  { s with hourly_data := [], next_hour := some (get_next_hour now) }
                  now with ⟨_, hfe⟩ | ⟨_, _, _, _, hh, _⟩
              · rw [hfe]
                exact Or.inl rfl
              · exact Or.inr (Or.inr (Or.inr ⟨by assumption, hh⟩))
          · rcases finishSave_spec env
                { s with hourly_data := s.hourly_data ++ [(s.next_save_time.getD 0, rp)] }
                now with ⟨_, hfe⟩ | ⟨_, _, _, _, hh, _⟩
            · rw [hfe]
              exact Or.inl rfl
            · exact Or.inr (Or.inr (Or.inl ⟨by assumption, hh⟩))
        · rcases finishSave_spec env s now with ⟨_, hfe⟩ | ⟨_, _, _, _, hh, _⟩
          · rw [hfe]
            exact Or.inl rfl
          · refine Or.inr (Or.inl ⟨?_, hh⟩)
            simp_all

/-- C7: a successful minute-rollup save advances the minute boundary to the
next whole minute strictly after the current wall clock (not from the old
boundary), so a second scheduler invocation at the same instant can never
report another save for the same boundary. -/
theorem C7_minute_boundary (env : Env) (s : CacheState) (now : ℕ)
    (h : (calculate_and_save_averages env s now).2 = true) :
    (calculate_and_save_averages env s now).1.next_save_time =
      some (get_next_minute now) ∧
    now < get_next_minute now ∧
    (∀ env2 : Env,
      (calculate_and_save_averages env2
        (calculate_and_save_averages env s now).1 now).2 = false) := by
  unfold calculate_and_save_averages at h ⊢
  rcases csaCore_spec env (csaInit s now) now with ⟨hf, _⟩ | ⟨_, _, hn⟩
  · rw [h] at hf
    exact absurd hf (by simp)
  · have harith : now < get_next_minute now := by
      unfold get_next_minute
      omega
    refine ⟨hn, harith, ?_⟩
    intro env2
    have hsv : is_save_time (csaCore env (csaInit s now) now).1 now = false := by
      unfold is_save_time
      rw [hn]
      simpa using Nat.not_le.mpr harith
    have hsv2 : is_save_time (csaInit (csaCore env (csaInit s now) now).1 now) now = false := by
      rw [(csaInit_fields _ now).2.2.2.2, hsv]
    rw [csaCore_not_due env2 _ now hsv2]

/-- C2 amended: whenever a flush attempt reports failure (including a
persistence failure), the sample buffer, the minute boundary and the daily
boundary are left exactly as they were and no error reaches the ingestion
caller — but the hour-side state (the hour-accumulation list and the hour
boundary) may already have been mutated before the failing write. -/
theorem C2_flush_failure (env : Env) (s : CacheState) (now : ℕ)
    (h : (calculate_and_save_averages env s now).2 = false) :
    (calculate_and_save_averages env s now).1.data = s.data ∧
    (calculate_and_save_averages env s now).1.next_save_time = s.next_save_time ∧
    (calculate_and_save_averages env s now).1.last_daily_aggregation =
      s.last_daily_aggregation := by
  unfold calculate_and_save_averages at h ⊢
  rcases csaCore_spec env (csaInit s now) now with ⟨_, hd, hn, hl⟩ | ⟨ht, _, _⟩
  · obtain ⟨d, n, l, _, _⟩ := csaInit_fields s now
    exact ⟨hd.trans d, hn.trans n, hl.trans l⟩
  · rw [h] at ht
    exact absurd ht (by simp)

/-- C1 amended: when an hour rollup fires during a completed minute-rollup
save, the scheduler advances the hour boundary to the next whole hour
strictly after the current wall clock (resynchronizing to the clock exactly
like the minute timer, not by fixed cadence); this coincides with one hour
after the boundary just reached precisely when the rollup fires less than
one hour past that boundary. -/
theorem C1_hour_boundary (env : Env) (s : CacheState) (now H : ℕ)
    (hH : s.next_hour = some H) (hle : H ≤ now)
    (hrp : (pyGetO ((calculate_averages s.data).getD []) "ups_realpower").isSome = true)
    (hsav : (calculate_and_save_averages env s now).2 = true) :
    (calculate_and_save_averages env s now).1.next_hour =
      some (get_next_hour now) ∧
    now < get_next_hour now ∧
    (H % 3600 = 0 → now < H + 3600 → get_next_hour now = H + 3600) := by
  have hinit : csaInit s now = s := by
    unfold csaInit
    rw [if_neg (by simp [hH])]
  unfold calculate_and_save_averages at hsav ⊢
  rw [hinit] at hsav ⊢
  rcases csaCore_hour_spec env s now with hf | ⟨hno, _⟩ | ⟨hnle, _⟩ | ⟨_, hh⟩
  · rw [hsav] at hf
    exact absurd hf (by simp)
  · rw [hrp] at hno
    exact absurd hno (by simp)
  · rw [hH] at hnle
    exact absurd hle (by simpa using hnle)
  · refine ⟨hh, ?_, ?_⟩
    · unfold get_next_hour
      omega
    · intro hmod hlt
      unfold get_next_hour
      omega

/-! ## A concrete reachable scheduler trace

Built from a fresh cache through the public operations only (`cacheAdd`
followed by `calculate_and_save_averages`), so every state below is
reachable. The device reports `ups_realpower` as the string `"100"` — a value
the pandas reduction treats as categorical (non-numeric dtype), which the
save step still appends to the hour-accumulation list. -/

def traceParse : String → Option ℚ := fun _ => none

/-- External outcomes with the persistence write succeeding. -/
def traceEnv : Env := ⟨true, some []⟩

/-- External outcomes with the persistence write failing. -/
def traceEnvFail : Env := ⟨false, some []⟩

def traceReading : List (String × Val) := [("ups_realpower", Val.vstr "100")]

/-- State after the first sample arrives at t = 30 s. -/
def traceS1 : CacheState := cacheAdd traceParse (initCache 60) 30 traceReading

/-- State after the first successful minute rollup at t = 61 s (the hour
boundary initializes to 3600 s during this call). -/
def traceS2 : CacheState := (calculate_and_save_averages traceEnv traceS1 61).1

/-- State after one more sample arrives at t = 8990 s, with the scheduler
stalled since t = 61 s: the hour boundary 3600 s lies far in the past. -/
def traceS3 : CacheState := cacheAdd traceParse traceS2 8990 traceReading

example : (calculate_and_save_averages traceEnv traceS1 61).2 = true := by decide

/-- C1 counterexample: in the reachable state `traceS3` the hour boundary is
3600 s and an hour rollup fires during the save at wall clock 9000 s (the
hour-accumulation list is cleared), yet the new hour boundary is 10800 s —
the next whole hour after the wall clock — and not 3600 + 3600 = 7200 s as
fixed-cadence advancement would demand. -/
theorem C1_hour_boundary_counterexample :
    traceS3.next_hour = some 3600 ∧
    (3600 : ℕ) ≤ 9000 ∧
    traceS3.hourly_data ≠ [] ∧
    (calculate_and_save_averages traceEnv traceS3 9000).2 = true ∧
    (calculate_and_save_averages traceEnv traceS3 9000).1.hourly_data = [] ∧
    (calculate_and_save_averages traceEnv traceS3 9000).1.next_hour = some 10800 ∧
    (10800 : ℕ) ≠ 3600 + 3600 := by
  decide

/-- C1 witness: the amended hour-boundary theorem applied to the reachable
state `traceS3` at wall clock 9000 s with boundary H = 3600 s. -/
theorem C1_hour_boundary_witness :
    traceS3.next_hour = some 3600 ∧ (3600 : ℕ) ≤ 9000 ∧
    (pyGetO ((calculate_averages traceS3.data).getD []) "ups_realpower").isSome = true ∧
    (calculate_and_save_averages traceEnv traceS3 9000).2 = true ∧
    ((calculate_and_save_averages traceEnv traceS3 9000).1.next_hour =
       some (get_next_hour 9000) ∧
     9000 < get_next_hour 9000 ∧
     (3600 % 3600 = 0 → 9000 < 3600 + 3600 → get_next_hour 9000 = 3600 + 3600)) :=
  ⟨by decide, by decide, by decide, by decide,
   C1_hour_boundary traceEnv traceS3 9000 3600 (by decide) (by decide)
     (by decide) (by decide)⟩

/-- C2 counterexample: in the reachable state `traceS3`, a flush at wall
clock 9000 s whose persistence write fails still clears the
hour-accumulation list and advances the hour boundary from 3600 s to
10800 s before the failing write — the state is not left exactly as it was,
even though the sample buffer stays untouched and the failure is reported as
a plain `False` return. -/
theorem C2_flush_failure_counterexample :
    traceEnvFail.persistOk = false ∧
    (calculate_and_save_averages traceEnvFail traceS3 9000).2 = false ∧
    traceS3.hourly_data = [(60, some (Val.vstr "100"))] ∧
    (calculate_and_save_averages traceEnvFail traceS3 9000).1.hourly_data = [] ∧
    traceS3.next_hour = some 3600 ∧
    (calculate_and_save_averages traceEnvFail traceS3 9000).1.next_hour = some 10800 ∧
    (calculate_and_save_averages traceEnvFail traceS3 9000).1.data = traceS3.data := by
  decide

/-- C2 witness: the amended failure-semantics theorem applied to the failing
flush on `traceS3` at wall clock 9000 s. -/
theorem C2_flush_failure_witness :
    (calculate_and_save_averages traceEnvFail traceS3 9000).2 = false ∧
    ((calculate_and_save_averages traceEnvFail traceS3 9000).1.data = traceS3.data ∧
     (calculate_and_save_averages traceEnvFail traceS3 9000).1.next_save_time =
       traceS3.next_save_time ∧
     (calculate_and_save_averages traceEnvFail traceS3 9000).1.last_daily_aggregation =
       traceS3.last_daily_aggregation) :=
  ⟨by decide, C2_flush_failure traceEnvFail traceS3 9000 (by decide)⟩

/-- C7 witness: the minute-boundary theorem applied to the successful save on
`traceS1` at wall clock 61 s. -/
theorem C7_minute_boundary_witness :
    (calculate_and_save_averages traceEnv traceS1 61).2 = true ∧
    ((calculate_and_save_averages traceEnv traceS1 61).1.next_save_time =
       some (get_next_minute 61) ∧
     61 < get_next_minute 61 ∧
     (∀ env2 : Env,
       (calculate_and_save_averages env2
         (calculate_and_save_averages traceEnv traceS1 61).1 61).2 = false)) :=
  ⟨by decide, C7_minute_boundary traceEnv traceS1 61 (by decide)⟩
